import Mathlib

/-!
Shallow embedding of the pthread-ext library (pthread_event.c, pthread_queue.c,
pthread_ext_common.c) and proofs about its specification.

Modelling conventions:
* Sequential (single-threaded) semantics: a `pthread_cond_wait` that no other
  thread can ever signal is modelled as `ExecResult.blocks`; a
  `pthread_cond_timedwait` whose predicate no other thread can make true is
  modelled as eventually returning `ETIMEDOUT` with the state unchanged.
* Machine integers: `uint32_t` fields are `Nat` (all source operations on them
  stay below `2^32` except bitwise complement, which is taken inside 32 bits
  via xor with `UINT32_MASK`); C `long` timeouts and `timespec` fields are `Int`.
* The queue's byte buffer is modelled at message granularity: slot `i` of
  `buffer` stands for the `msg_len` bytes at offset `i * msg_len`, and the
  `memcpy` of one message is a store/load of one slot.
* The local variable `result` in `pthread_event_wait` is read uninitialized on
  the path that never enters the wait loop; its indeterminate initial contents
  are an explicit parameter `junk`.
-/

/-- Linux errno value used by the source. -/
def ENOMEM : Nat := 12

/-- Linux errno value used by the source. -/
def EINVAL : Nat := 22

/-- Linux errno value used by the source. -/
def ETIMEDOUT : Nat := 110

/-- Linux errno value used by the source. -/
def ECANCELED : Nat := 125

/-- `#define PTHREAD_WAIT (-1)` from pthread_ext_common.h. -/
def PTHREAD_WAIT : Int := -1

/-- `#define PTHREAD_NOWAIT (0)` from pthread_ext_common.h. -/
def PTHREAD_NOWAIT : Int := 0

/-- All-ones 32-bit word, for the `~` complement on `uint32_t` masks. -/
def UINT32_MASK : Nat := 4294967295

/-- Outcome of one call in the sequential model: either the call returns with
an `int` code, an output value and a post-state, or it blocks forever. -/
inductive ExecResult (ρ : Type u) (σ : Type v) where
  | ret (code : Nat) (val : ρ) (state : σ)
  | blocks
  deriving DecidableEq

/-- Post-state of a call: its returned state, or the unchanged pre-state if the
call blocks (a blocked call has not completed and has made no update). -/
def afterExec (s : σ) : ExecResult ρ σ → σ
  | .ret _ _ s' => s'
  | .blocks => s

/-- Map a function over the state inside an `ExecResult`. -/
def mapState (f : σ → σ) : ExecResult ρ σ → ExecResult ρ σ
  | .ret c v s => .ret c v (f s)
  | .blocks => .blocks

/-! ### pthread_event -/

/-- `typedef enum { PTHREAD_EVENT_ANY, PTHREAD_EVENT_ALL } pthread_event_test;`
`any` has numeric value 0, `all` has numeric value 1. -/
inductive EventTest where
  | any
  | all
  deriving DecidableEq

/-- `typedef enum { PTHREAD_EVENT_CLEAR, PTHREAD_EVENT_KEEP } pthread_event_action;` -/
inductive EventAction where
  | clear
  | keep
  deriving DecidableEq

/-- The observable fields of `pthread_event_t` (mutex/cond/destroyFree carry no
sequentially observable data). `mask` is the `uint32_t` event mask, `reset` the
`uint8_t` reset flag. -/
structure EventState where
  mask : Nat
  reset : Bool
  deriving DecidableEq

/-- Lines 151 and 176 of pthread_event.c:
`done = (PTHREAD_EVENT_ANY == mask) ? ((event->mask & mask) != 0) : ((event->mask & mask) == mask);`
The source compares the enum constant `PTHREAD_EVENT_ANY` (numeric value 0)
against the `mask` argument, i.e. the branch is selected by `mask == 0`; the
`test` argument does not appear in the expression. -/
def eventDone (current mask : Nat) : Bool :=
  if 0 = mask then decide ((current &&& mask) ≠ 0) else decide ((current &&& mask) = mask)

/-- `pthread_event_set`: `event->mask |= mask;` with no check of `reset`
(pthread_event.c lines 95-107). Returns 0 unconditionally, so only the state
is modelled. -/
def pthread_event_set (event : EventState) (mask : Nat) : EventState :=
  { event with mask := event.mask ||| mask }

/-- `pthread_event_clr`: `event->mask &= ~mask;` (pthread_event.c lines 114-125). -/
def pthread_event_clr (event : EventState) (mask : Nat) : EventState :=
  { event with mask := event.mask &&& (UINT32_MASK ^^^ mask) }

/-- `pthread_event_reset`: `event->mask = 0; event->reset = 1;`
(pthread_event.c lines 202-211). -/
def pthread_event_reset (event : EventState) : EventState :=
  { event with mask := 0, reset := true }

/-- `pthread_event_unreset`: `event->reset = 0;` (pthread_event.c lines 217-224). -/
def pthread_event_unreset (event : EventState) : EventState :=
  { event with reset := false }

/-- `pthread_event_current`: returns `event->mask`. -/
def pthread_event_current (event : EventState) : Nat :=
  event.mask

/-- `pthread_event_wait` (pthread_event.c lines 134-186), sequential semantics.
`junk` is the indeterminate initial value of the local `int result`, which the
source reads uninitialized whenever the wait loop is never entered (it is only
assigned inside the loop body).
Path by path: a negative non-`PTHREAD_WAIT` timeout returns `EINVAL`;
`PTHREAD_NOWAIT` with the test unsatisfied returns `ETIMEDOUT`; with the test
unsatisfied and `reset` clear the loop is entered, where (no other thread
existing) `pthread_cond_wait` blocks forever and `pthread_cond_timedwait`
eventually times out; otherwise the loop is skipped, the `action` is applied
and the uninitialized `result` is returned. The `test` argument is accepted and
ignored, exactly as in the source. -/
def pthread_event_wait (event : EventState) (mask : Nat) (test : EventTest)
    (action : EventAction) (timeout : Int) (junk : Nat) :
    ExecResult Unit EventState :=
  if timeout ≠ PTHREAD_WAIT ∧ timeout < 0 then
    .ret EINVAL () event
  else if timeout = PTHREAD_NOWAIT ∧ eventDone event.mask mask = false then
    .ret ETIMEDOUT () event
  else if eventDone event.mask mask = false ∧ event.reset = false then
    if timeout = PTHREAD_WAIT then .blocks
    else .ret ETIMEDOUT () event
  else
    .ret junk ()
      (match action with
        | .clear => { event with mask := event.mask &&& (UINT32_MASK ^^^ mask) }
        | .keep => event)

/-! ### pthread_ext_common -/

/-- `struct timespec`, with C `time_t`/`long` fields as `Int`. -/
structure Timespec where
  tv_sec : Int
  tv_nsec : Int
  deriving DecidableEq

/-- `pthread_ext_ms2abs_time` (pthread_ext_common.c lines 34-53), as a pure
function of the clock reading `base` it obtains from `clock_gettime` and the
millisecond offset `ms`. Note the normalization guard is the strict
`abstime->tv_nsec > 1000000000l` of the source. -/
def pthread_ext_ms2abs_time (ms : Int) (base : Timespec) : Timespec :=
  let t :=
    if ms ≥ 1000 then
      { tv_sec := base.tv_sec + ms / 1000, tv_nsec := base.tv_nsec + ms % 1000 * 1000000 }
    else
      { base with tv_nsec := base.tv_nsec + ms * 1000000 }
  if t.tv_nsec > 1000000000 then
    { tv_sec := t.tv_sec + 1, tv_nsec := t.tv_nsec - 1000000000 }
  else
    t

/-! ### pthread_queue -/

/-- The observable fields of `struct pthread_queue_s`. `buffer` is the circular
byte buffer viewed at message granularity: `buffer i` is the message stored in
slot `i` (bytes `i * msg_len ..`). -/
structure QueueState (α : Type) where
  buffer : Nat → α
  head : Nat
  tail : Nat
  count : Nat
  qsize : Nat
  msg_len : Nat
  reset : Bool

/-- `pthread_queue_create` (pthread_queue.c lines 62-89): zeroed indices, the
given capacity and message length. `init` stands for the indeterminate contents
of the freshly `malloc`ed buffer. -/
def pthread_queue_create (α : Type) (num_msg msg_len_bytes : Nat) (init : α) :
    QueueState α :=
  { buffer := fun _ => init, head := 0, tail := 0, count := 0,
    qsize := num_msg, msg_len := msg_len_bytes, reset := false }

/-- The index step `(i == qsize-1) ? 0 : i+1` used for both `tail`
(pthread_queue.c line 159) and `head` (line 222). -/
def wrapIncr (i n : Nat) : Nat :=
  if i = n - 1 then 0 else i + 1

/-- The successful-send update of `pthread_queue_sendmsg`
(pthread_queue.c lines 156-159): store at slot `tail`, increment `count`,
advance `tail` with wraparound. -/
def enqueue (q : QueueState α) (msg : α) : QueueState α :=
  { q with
    buffer := fun i => if i = q.tail then msg else q.buffer i,
    count := q.count + 1,
    tail := wrapIncr q.tail q.qsize }

/-- The successful-receive update of `pthread_queue_getmsg`
(pthread_queue.c lines 220-222): decrement `count`, advance `head`
with wraparound. -/
def dequeueState (q : QueueState α) : QueueState α :=
  { q with
    count := q.count - 1,
    head := wrapIncr q.head q.qsize }

/-- `pthread_queue_sendmsg` (pthread_queue.c lines 113-171), sequential
semantics. A negative non-`PTHREAD_WAIT` timeout returns `EINVAL`;
`PTHREAD_NOWAIT` on a full queue returns `ETIMEDOUT`; on a full, non-reset
queue the wait loop is entered, where (no other thread existing)
`pthread_cond_wait` blocks forever and `pthread_cond_timedwait` eventually
times out; past the loop, an observed `reset` returns `ECANCELED` with no
copy and no index update, and otherwise the message is stored and 0 returned. -/
def pthread_queue_sendmsg (queue : QueueState α) (msg : α) (timeout : Int) :
    ExecResult Unit (QueueState α) :=
  if timeout ≠ PTHREAD_WAIT ∧ timeout < 0 then
    .ret EINVAL () queue
  else if timeout = PTHREAD_NOWAIT ∧ queue.count = queue.qsize then
    .ret ETIMEDOUT () queue
  else if queue.count = queue.qsize ∧ queue.reset = false then
    if timeout = PTHREAD_WAIT then .blocks
    else .ret ETIMEDOUT () queue
  else if queue.reset then
    .ret ECANCELED () queue
  else
    .ret 0 () (enqueue queue msg)

/-- `pthread_queue_getmsg` (pthread_queue.c lines 181-230), sequential
semantics. A negative non-`PTHREAD_WAIT` timeout returns `EINVAL`;
`PTHREAD_NOWAIT` on an empty queue returns `ETIMEDOUT`; on an empty queue the
wait loop `while (queue->count == 0)` is entered (it does not look at `reset`),
where `pthread_cond_wait` blocks forever and `pthread_cond_timedwait`
eventually times out; otherwise the head message is returned and removed.
The returned value is `some` of the copied-out message on success, `none` when
the output buffer is not written. -/
def pthread_queue_getmsg (queue : QueueState α) (timeout : Int) :
    ExecResult (Option α) (QueueState α) :=
  if timeout ≠ PTHREAD_WAIT ∧ timeout < 0 then
    .ret EINVAL none queue
  else if timeout = PTHREAD_NOWAIT ∧ queue.count = 0 then
    .ret ETIMEDOUT none queue
  else if queue.count = 0 then
    if timeout = PTHREAD_WAIT then .blocks
    else .ret ETIMEDOUT none queue
  else
    .ret 0 (some (queue.buffer queue.head)) (dequeueState queue)

/-- `pthread_queue_count`: returns `queue->count`. -/
def pthread_queue_count (queue : QueueState α) : Nat :=
  queue.count

/-- `pthread_queue_reset` (pthread_queue.c lines 245-256): zero the indices and
the count, raise the reset flag. -/
def pthread_queue_reset (queue : QueueState α) : QueueState α :=
  { queue with head := 0, tail := 0, count := 0, reset := true }

/-- `pthread_queue_unreset` (pthread_queue.c lines 262-269): clear the reset
flag. -/
def pthread_queue_unreset (queue : QueueState α) : QueueState α :=
  { queue with reset := false }

/-- A queue state with its reset flag overwritten, for stating that an
operation is insensitive to the flag. -/
def withReset (q : QueueState α) (b : Bool) : QueueState α :=
  { q with reset := b }

/-- One completed call on a queue, for stating invariants over operation
sequences. -/
inductive QueueOp (α : Type) where
  | send (msg : α) (timeout : Int)
  | recv (timeout : Int)
  | reset
  | unreset

/-- The post-state of one queue operation (a blocked call leaves the state
unchanged, having made no update). -/
def applyOp (q : QueueState α) : QueueOp α → QueueState α
  | .send msg t => afterExec q (pthread_queue_sendmsg q msg t)
  | .recv t => afterExec q (pthread_queue_getmsg q t)
  | .reset => pthread_queue_reset q
  | .unreset => pthread_queue_unreset q

/-- Run a sequence of queue operations. -/
def runOps (q : QueueState α) (ops : List (QueueOp α)) : QueueState α :=
  ops.foldl applyOp q

/-- The structural invariant of the circular buffer. -/
def QueueInv (q : QueueState α) : Prop :=
  0 < q.qsize ∧ q.count ≤ q.qsize ∧ q.head < q.qsize ∧ q.tail < q.qsize ∧
    q.tail = (q.head + q.count) % q.qsize

instance (q : QueueState α) : Decidable (QueueInv q) := by
  unfold QueueInv; infer_instance

/-- The abstract contents of the queue, oldest first: the element at logical
position `i` resides at slot `(head + i) % qsize`. -/
def toList (q : QueueState α) : List α :=
  (List.range q.count).map fun i => q.buffer ((q.head + i) % q.qsize)

/-! ### Sample states used by the witnesses -/

/-- An empty 3-slot queue of `Nat` messages. -/
def emptyQ : QueueState Nat :=
  { buffer := fun _ => 0, head := 0, tail := 0, count := 0,
    qsize := 3, msg_len := 4, reset := false }

/-- A 3-slot queue holding the single message `10` in slot 0. -/
def oneQ : QueueState Nat :=
  { buffer := fun i => 10 + i, head := 0, tail := 1, count := 1,
    qsize := 3, msg_len := 4, reset := false }

/-- A full 3-slot queue. -/
def fullQ3 : QueueState Nat :=
  { buffer := fun i => 20 + i, head := 0, tail := 0, count := 3,
    qsize := 3, msg_len := 4, reset := false }

/-- A 3-slot queue holding one message, with the reset flag raised. -/
def resetQ : QueueState Nat :=
  { buffer := fun i => 30 + i, head := 0, tail := 1, count := 1,
    qsize := 3, msg_len := 4, reset := true }

/-! ### Projection lemmas -/

@[simp] theorem withReset_buffer (q : QueueState α) (b : Bool) :
    (withReset q b).buffer = q.buffer := rfl

@[simp] theorem withReset_head (q : QueueState α) (b : Bool) :
    (withReset q b).head = q.head := rfl

@[simp] theorem withReset_tail (q : QueueState α) (b : Bool) :
    (withReset q b).tail = q.tail := rfl

@[simp] theorem withReset_count (q : QueueState α) (b : Bool) :
    (withReset q b).count = q.count := rfl

@[simp] theorem withReset_qsize (q : QueueState α) (b : Bool) :
    (withReset q b).qsize = q.qsize := rfl

theorem dequeueState_withReset (q : QueueState α) (b : Bool) :
    dequeueState (withReset q b) = withReset (dequeueState q) b := rfl

/-! ### Claim theorems -/

/-- Claim C1. The claim states that `pthread_event_wait` selects its wake
predicate by the `test` argument, with `test = ANY` giving `(current & mask) ≠ 0`.
The source instead compares the enum constant against `mask` (line 151), so the
`test` argument is ignored: here `current = 1`, `mask = 3`, `test = ANY`, the
claimed ANY-predicate `1 &&& 3 ≠ 0` holds, yet a `PTHREAD_NOWAIT` wait times
out, and flipping `test` to ALL cannot change any outcome. -/
theorem event_wait_ignores_test_bug :
    (1 &&& 3 ≠ 0) ∧
    pthread_event_wait { mask := 1, reset := false } 3 EventTest.any EventAction.keep
        PTHREAD_NOWAIT 0
      = .ret ETIMEDOUT () { mask := 1, reset := false } ∧
    pthread_event_wait { mask := 1, reset := false } 3 EventTest.any EventAction.keep
        PTHREAD_NOWAIT 0
      = pthread_event_wait { mask := 1, reset := false } 3 EventTest.all EventAction.keep
        PTHREAD_NOWAIT 0 := by
  exact ⟨by decide, by decide, rfl⟩

/-- Claim C2. With `resetActive` false and `timeout = PTHREAD_NOWAIT`, the
unsatisfied-predicate half holds (`ETIMEDOUT` immediately), but when the
predicate is already satisfied at entry the source returns the uninitialized
local `result` (assigned only inside the never-entered wait loop), not 0: with
indeterminate stack contents 7 the call returns 7. -/
theorem event_wait_poll_uninitialized_result_bug :
    pthread_event_wait { mask := 0, reset := false } 1 EventTest.any EventAction.keep
        PTHREAD_NOWAIT 7
      = .ret ETIMEDOUT () { mask := 0, reset := false } ∧
    pthread_event_wait { mask := 1, reset := false } 1 EventTest.any EventAction.keep
        PTHREAD_NOWAIT 7
      = .ret 7 () { mask := 1, reset := false } ∧
    (7 : Nat) ≠ 0 := by
  decide

/-- Claim C3. The claim states that while `resetActive` is true every operation
holds the mask at zero. But `pthread_event_set` ORs its bits in without
checking `reset` (line 99): setting bit 1 on a freshly reset event leaves the
mask at 1, not 0. -/
theorem event_set_during_reset_bug :
    pthread_event_set (pthread_event_reset { mask := 5, reset := false }) 1
      = { mask := 1, reset := true } ∧ (1 : Nat) ≠ 0 := by
  decide

/-- Claim C6. If `pthread_queue_sendmsg` reaches the read of `reset` (i.e. the
timeout is valid and the `PTHREAD_NOWAIT`-on-full early exit does not fire) and
the flag is raised, it returns `ECANCELED` with the state — buffer, `count`,
`tail` — exactly unchanged. -/
theorem send_observing_reset_canceled (q : QueueState α) (msg : α) (t : Int)
    (hreset : q.reset = true) (hvalid : t = PTHREAD_WAIT ∨ 0 ≤ t)
    (hpoll : ¬(t = PTHREAD_NOWAIT ∧ q.count = q.qsize)) :
    pthread_queue_sendmsg q msg t = .ret ECANCELED () q := by
  have h1 : ¬(t ≠ PTHREAD_WAIT ∧ t < 0) := by
    rcases hvalid with h | h
    · exact fun hc => hc.1 h
    · exact fun hc => absurd hc.2 (not_lt.mpr h)
  have h3 : ¬(q.count = q.qsize ∧ q.reset = false) := by
    rintro ⟨-, hc⟩
    rw [hreset] at hc
    cases hc
  unfold pthread_queue_sendmsg
  rw [if_neg h1, if_neg hpoll, if_neg h3, if_pos hreset]

/-- Witness for C6: a reset queue holding one of three slots; a blocking send
is cancelled with the state unchanged. -/
theorem send_observing_reset_canceled_witness :
    pthread_queue_sendmsg resetQ 9 PTHREAD_WAIT = .ret ECANCELED () resetQ :=
  send_observing_reset_canceled resetQ 9 PTHREAD_WAIT rfl (Or.inl rfl) (by decide)

/-- Claim C7. A timeout that is negative and not the `PTHREAD_WAIT` sentinel
makes `pthread_event_wait`, `pthread_queue_sendmsg` and `pthread_queue_getmsg`
return `EINVAL` with the pre-state returned untouched. -/
theorem negative_timeout_einval (e : EventState) (q : QueueState α) (mask : Nat)
    (test : EventTest) (action : EventAction) (junk : Nat) (msg : α) (t : Int)
    (h1 : t ≠ PTHREAD_WAIT) (h2 : t < 0) :
    pthread_event_wait e mask test action t junk = .ret EINVAL () e ∧
    pthread_queue_sendmsg q msg t = .ret EINVAL () q ∧
    pthread_queue_getmsg q t = .ret EINVAL none q := by
  refine ⟨?_, ?_, ?_⟩ <;>
    simp [pthread_event_wait, pthread_queue_sendmsg, pthread_queue_getmsg, h1, h2]

/-- Witness for C7 at timeout `-2`. -/
theorem negative_timeout_einval_witness :
    pthread_event_wait { mask := 2, reset := false } 1 EventTest.all EventAction.clear
        (-2) 0
      = .ret EINVAL () { mask := 2, reset := false } ∧
    pthread_queue_sendmsg oneQ 9 (-2) = .ret EINVAL () oneQ ∧
    pthread_queue_getmsg oneQ (-2) = .ret EINVAL none oneQ :=
  negative_timeout_einval { mask := 2, reset := false } oneQ 1 EventTest.all
    EventAction.clear 0 9 (-2) (by decide) (by decide)

/-- Claim C8. On a queue of capacity 3 holding 3 messages with the reset flag
clear, a `PTHREAD_NOWAIT` send returns `ETIMEDOUT` at once with the state —
`count`, `head`, `tail`, buffer — exactly unchanged. -/
theorem send_poll_on_full_timedout (q : QueueState α) (msg : α)
    (hsize : q.qsize = 3) (hcount : q.count = 3) (hreset : q.reset = false) :
    pthread_queue_sendmsg q msg PTHREAD_NOWAIT = .ret ETIMEDOUT () q := by
  simp [pthread_queue_sendmsg, PTHREAD_NOWAIT, PTHREAD_WAIT, hsize, hcount]

/-- Witness for C8 on a concrete full queue. -/
theorem send_poll_on_full_timedout_witness :
    pthread_queue_sendmsg fullQ3 9 PTHREAD_NOWAIT = .ret ETIMEDOUT () fullQ3 :=
  send_poll_on_full_timedout fullQ3 9 rfl rfl rfl

/-- Claim C10. The claim states the result of `pthread_ext_ms2abs_time` has
`tv_nsec` normalized into `[0, 10^9)`. The source tests `tv_nsec > 10^9`
instead of `>= 10^9` (line 47), so base `tv_nsec = 999000000` plus `ms = 1`
yields `tv_nsec` exactly `10^9`, which escapes normalization. -/
theorem ms2abs_time_normalization_bug :
    pthread_ext_ms2abs_time 1 { tv_sec := 0, tv_nsec := 999000000 }
      = { tv_sec := 0, tv_nsec := 1000000000 } ∧
    ¬(pthread_ext_ms2abs_time 1 { tv_sec := 0, tv_nsec := 999000000 }).tv_nsec
        < 1000000000 := by
  decide

/-- Claim C9. `pthread_queue_getmsg` never consults the reset flag: its result
is the same whatever that flag holds (the flag is carried through unread); in
particular a `PTHREAD_NOWAIT` receive on an empty queue returns `ETIMEDOUT`
even during reset, and a receive on a non-empty queue succeeds normally during
reset, returning the head message. -/
theorem getmsg_ignores_reset (q : QueueState α) (b : Bool) (t : Int) :
    pthread_queue_getmsg (withReset q b) t
      = mapState (fun s => withReset s b) (pthread_queue_getmsg q t) ∧
    (q.count = 0 → pthread_queue_getmsg (withReset q true) PTHREAD_NOWAIT
      = .ret ETIMEDOUT none (withReset q true)) ∧
    (0 < q.count → pthread_queue_getmsg (withReset q true) PTHREAD_NOWAIT
      = .ret 0 (some (q.buffer q.head)) (withReset (dequeueState q) true)) := by
  refine ⟨?_, ?_, ?_⟩
  · by_cases h1 : t ≠ PTHREAD_WAIT ∧ t < 0
    · simp [pthread_queue_getmsg, mapState, h1]
    · by_cases h2 : t = PTHREAD_NOWAIT ∧ q.count = 0
      · simp [pthread_queue_getmsg, mapState, h1, h2, PTHREAD_NOWAIT, PTHREAD_WAIT]
      · by_cases h3 : q.count = 0
        · by_cases h4 : t = PTHREAD_WAIT
          · simp [pthread_queue_getmsg, mapState, h1, h2, h3, h4,
              PTHREAD_NOWAIT, PTHREAD_WAIT]
          · have h5 : ¬t = PTHREAD_NOWAIT := fun hc => h2 ⟨hc, h3⟩
            have h6 : ¬t < 0 := fun hc => h1 ⟨h4, hc⟩
            simp [pthread_queue_getmsg, mapState, h1, h3, h4, h5, h6]
        · simp [pthread_queue_getmsg, mapState, h1, h2, h3, dequeueState_withReset]
  · intro h
    simp [pthread_queue_getmsg, PTHREAD_NOWAIT, PTHREAD_WAIT, h]
  · intro h
    simp [pthread_queue_getmsg, PTHREAD_NOWAIT, PTHREAD_WAIT, h.ne',
      dequeueState_withReset]

/-- Witness for C9: empty and non-empty reset queues behave exactly as with
the flag clear. -/
theorem getmsg_ignores_reset_witness :
    pthread_queue_getmsg (withReset emptyQ true) PTHREAD_NOWAIT
      = .ret ETIMEDOUT none (withReset emptyQ true) ∧
    pthread_queue_getmsg (withReset oneQ true) PTHREAD_NOWAIT
      = .ret 0 (some (oneQ.buffer oneQ.head)) (withReset (dequeueState oneQ) true) :=
  ⟨(getmsg_ignores_reset emptyQ true 0).2.1 rfl,
   (getmsg_ignores_reset oneQ true 0).2.2 (by decide)⟩

/-! ### The circular-buffer invariant -/

theorem wrapIncr_eq_mod {i n : Nat} (h : i < n) : wrapIncr i n = (i + 1) % n := by
  unfold wrapIncr
  by_cases hc : i = n - 1
  · subst hc
    rw [if_pos rfl]
    have hn : n - 1 + 1 = n := by omega
    rw [hn, Nat.mod_self]
  · rw [if_neg hc]
    exact (Nat.mod_eq_of_lt (by omega)).symm

theorem queueInv_enqueue {q : QueueState α} (h : QueueInv q)
    (hlt : q.count < q.qsize) (msg : α) : QueueInv (enqueue q msg) := by
  obtain ⟨hn, hc, hh, ht, he⟩ := h
  refine ⟨hn, hlt, hh, ?_, ?_⟩
  · show wrapIncr q.tail q.qsize < q.qsize
    rw [wrapIncr_eq_mod ht]
    exact Nat.mod_lt _ hn
  · show wrapIncr q.tail q.qsize = (q.head + (q.count + 1)) % q.qsize
    rw [wrapIncr_eq_mod ht, he, Nat.mod_add_mod, Nat.add_assoc]

theorem queueInv_dequeue {q : QueueState α} (h : QueueInv q)
    (hpos : 0 < q.count) : QueueInv (dequeueState q) := by
  obtain ⟨hn, hc, hh, ht, he⟩ := h
  refine ⟨hn, ?_, ?_, ht, ?_⟩
  · show q.count - 1 ≤ q.qsize
    omega
  · show wrapIncr q.head q.qsize < q.qsize
    rw [wrapIncr_eq_mod hh]
    exact Nat.mod_lt _ hn
  · show q.tail = (wrapIncr q.head q.qsize + (q.count - 1)) % q.qsize
    rw [wrapIncr_eq_mod hh, Nat.mod_add_mod, he]
    congr 1
    omega

/-- A completed `pthread_queue_sendmsg` either leaves the state untouched or,
when there is room and no reset, performs exactly the `enqueue` update. -/
theorem sendmsg_after (q : QueueState α) (msg : α) (t : Int) :
    afterExec q (pthread_queue_sendmsg q msg t) = q ∨
      (q.count ≠ q.qsize ∧ q.reset = false ∧
        afterExec q (pthread_queue_sendmsg q msg t) = enqueue q msg) := by
  by_cases h1 : t ≠ PTHREAD_WAIT ∧ t < 0
  · exact Or.inl (by simp [pthread_queue_sendmsg, afterExec, h1])
  · by_cases h2 : t = PTHREAD_NOWAIT ∧ q.count = q.qsize
    · exact Or.inl (by
        simp [pthread_queue_sendmsg, afterExec, h1, h2, PTHREAD_WAIT, PTHREAD_NOWAIT])
    · by_cases h3 : q.count = q.qsize ∧ q.reset = false
      · by_cases h4 : t = PTHREAD_WAIT
        · exact Or.inl (by
            simp [pthread_queue_sendmsg, afterExec, h1, h2, h3, h4,
              PTHREAD_WAIT, PTHREAD_NOWAIT])
        · have h6 : ¬t < 0 := fun hc => h1 ⟨h4, hc⟩
          exact Or.inl (by
            simp [pthread_queue_sendmsg, afterExec, h1, h2, h3, h4, h6])
      · by_cases h5 : q.reset = true
        · exact Or.inl (by simp [pthread_queue_sendmsg, afterExec, h1, h2, h3, h5])
        · have h6 : q.reset = false := by simpa using h5
          have h7 : q.count ≠ q.qsize := fun hc => h3 ⟨hc, h6⟩
          exact Or.inr ⟨h7, h6,
            by simp [pthread_queue_sendmsg, afterExec, h1, h2, h3, h5, h7]⟩

/-- A completed `pthread_queue_getmsg` either leaves the state untouched or,
when the queue is non-empty, performs exactly the `dequeueState` update. -/
theorem getmsg_after (q : QueueState α) (t : Int) :
    afterExec q (pthread_queue_getmsg q t) = q ∨
      (q.count ≠ 0 ∧ afterExec q (pthread_queue_getmsg q t) = dequeueState q) := by
  by_cases h1 : t ≠ PTHREAD_WAIT ∧ t < 0
  · exact Or.inl (by simp [pthread_queue_getmsg, afterExec, h1])
  · by_cases h2 : t = PTHREAD_NOWAIT ∧ q.count = 0
    · exact Or.inl (by
        simp [pthread_queue_getmsg, afterExec, h1, h2, PTHREAD_WAIT, PTHREAD_NOWAIT])
    · by_cases h3 : q.count = 0
      · by_cases h4 : t = PTHREAD_WAIT
        · exact Or.inl (by
            simp [pthread_queue_getmsg, afterExec, h1, h2, h3, h4,
              PTHREAD_WAIT, PTHREAD_NOWAIT])
        · have h6 : ¬t < 0 := fun hc => h1 ⟨h4, hc⟩
          exact Or.inl (by
            simp [pthread_queue_getmsg, afterExec, h1, h2, h3, h4, h6])
      · exact Or.inr ⟨h3, by simp [pthread_queue_getmsg, afterExec, h1, h2, h3]⟩

theorem queueInv_applyOp {q : QueueState α} (h : QueueInv q) (op : QueueOp α) :
    QueueInv (applyOp q op) := by
  cases op with
  | send msg t =>
      rcases sendmsg_after q msg t with heq | ⟨hne, -, heq⟩
      · show QueueInv (afterExec q (pthread_queue_sendmsg q msg t))
        rw [heq]
        exact h
      · show QueueInv (afterExec q (pthread_queue_sendmsg q msg t))
        rw [heq]
        exact queueInv_enqueue h (lt_of_le_of_ne h.2.1 hne) msg
  | recv t =>
      rcases getmsg_after q t with heq | ⟨hne, heq⟩
      · show QueueInv (afterExec q (pthread_queue_getmsg q t))
        rw [heq]
        exact h
      · show QueueInv (afterExec q (pthread_queue_getmsg q t))
        rw [heq]
        exact queueInv_dequeue h (Nat.pos_of_ne_zero hne)
  | reset =>
      obtain ⟨hn, -, -, -, -⟩ := h
      exact ⟨hn, Nat.zero_le _, hn, hn, (Nat.zero_mod _).symm⟩
  | unreset => exact h

theorem queueInv_runOps {q : QueueState α} (h : QueueInv q)
    (ops : List (QueueOp α)) : QueueInv (runOps q ops) := by
  induction ops generalizing q with
  | nil => exact h
  | cons op rest ih => exact ih (queueInv_applyOp h op)

/-- Claim C4. Starting from a freshly created queue of positive capacity,
every sequence of send, receive, reset and unreset operations preserves
`0 ≤ count ≤ capacity`, `head, tail < capacity` and
`tail = (head + count) % capacity`. -/
theorem queue_invariant_preserved (α : Type) (cap elt : Nat) (init : α)
    (hcap : 0 < cap) (ops : List (QueueOp α)) :
    QueueInv (runOps (pthread_queue_create α cap elt init) ops) :=
  queueInv_runOps ⟨hcap, Nat.zero_le _, hcap, hcap, (Nat.zero_mod _).symm⟩ ops

/-- Witness for C4 on a capacity-2 queue and a five-operation sequence. -/
theorem queue_invariant_preserved_witness :
    QueueInv (runOps (pthread_queue_create Nat 2 4 0)
      [QueueOp.send 5 0, QueueOp.send 7 (-1), QueueOp.recv 0, QueueOp.reset,
        QueueOp.unreset]) :=
  queue_invariant_preserved Nat 2 4 0 (by decide)
    [QueueOp.send 5 0, QueueOp.send 7 (-1), QueueOp.recv 0, QueueOp.reset,
      QueueOp.unreset]

/-! ### FIFO order -/

theorem toList_enqueue {q : QueueState α} (h : QueueInv q)
    (hlt : q.count < q.qsize) (msg : α) :
    toList (enqueue q msg) = toList q ++ [msg] := by
  obtain ⟨hn, hc, hh, ht, he⟩ := h
  unfold toList enqueue
  dsimp only
  rw [List.range_succ, List.map_append]
  congr 1
  · refine List.map_congr_left ?_
    intro i hi
    rw [List.mem_range] at hi
    have hne : (q.head + i) % q.qsize ≠ q.tail := by
      rw [he]
      intro hcon
      have h1 : i % q.qsize = q.count % q.qsize :=
        Nat.ModEq.add_left_cancel' q.head hcon
      rw [Nat.mod_eq_of_lt (lt_trans hi hlt), Nat.mod_eq_of_lt hlt] at h1
      omega
    rw [if_neg hne]
  · rw [List.map_cons, List.map_nil, he, if_pos rfl]

theorem toList_dequeue {q : QueueState α} (h : QueueInv q)
    (hpos : 0 < q.count) :
    toList q = q.buffer q.head :: toList (dequeueState q) := by
  obtain ⟨hn, hc, hh, ht, he⟩ := h
  unfold toList dequeueState
  dsimp only
  obtain ⟨k, hk⟩ : ∃ k, q.count = k + 1 := ⟨q.count - 1, by omega⟩
  rw [hk]
  simp only [Nat.add_sub_cancel]
  rw [List.range_succ_eq_map k, List.map_cons]
  congr 1
  · rw [Nat.add_zero, Nat.mod_eq_of_lt hh]
  · rw [List.map_map]
    refine List.map_congr_left ?_
    intro i hi
    show q.buffer ((q.head + (i + 1)) % q.qsize)
      = q.buffer ((wrapIncr q.head q.qsize + i) % q.qsize)
    rw [wrapIncr_eq_mod hh, Nat.mod_add_mod]
    have harg : q.head + (i + 1) = q.head + 1 + i := by omega
    rw [harg]

/-- A send that returns 0 found room, found no reset, and performed exactly
the `enqueue` update. -/
theorem sendmsg_ret_zero {q q' : QueueState α} {msg : α} {t : Int}
    (h : pthread_queue_sendmsg q msg t = .ret 0 () q') :
    q.count ≠ q.qsize ∧ q.reset = false ∧ q' = enqueue q msg := by
  by_cases h1 : t ≠ PTHREAD_WAIT ∧ t < 0
  · simp [pthread_queue_sendmsg, h1, EINVAL] at h
  · by_cases h2 : t = PTHREAD_NOWAIT ∧ q.count = q.qsize
    · simp [pthread_queue_sendmsg, h1, h2, PTHREAD_WAIT, PTHREAD_NOWAIT,
        ETIMEDOUT] at h
    · by_cases h3 : q.count = q.qsize ∧ q.reset = false
      · by_cases h4 : t = PTHREAD_WAIT
        · simp [pthread_queue_sendmsg, h1, h2, h3, h4, PTHREAD_WAIT,
            PTHREAD_NOWAIT] at h
        · have h6 : ¬t < 0 := fun hc => h1 ⟨h4, hc⟩
          simp [pthread_queue_sendmsg, h1, h2, h3, h4, h6, ETIMEDOUT] at h
      · by_cases h5 : q.reset = true
        · simp [pthread_queue_sendmsg, h1, h2, h3, h5, ECANCELED] at h
        · have h6 : q.reset = false := by simpa using h5
          have h7 : q.count ≠ q.qsize := fun hc => h3 ⟨hc, h6⟩
          refine ⟨h7, h6, ?_⟩
          simp [pthread_queue_sendmsg, h1, h2, h3, h5, h7] at h
          exact h.symm

/-- A receive that returns 0 found the queue non-empty, copied out the head
message, and performed exactly the `dequeueState` update. -/
theorem getmsg_ret_zero {q q' : QueueState α} {v : Option α} {t : Int}
    (h : pthread_queue_getmsg q t = .ret 0 v q') :
    q.count ≠ 0 ∧ v = some (q.buffer q.head) ∧ q' = dequeueState q := by
  by_cases h1 : t ≠ PTHREAD_WAIT ∧ t < 0
  · simp [pthread_queue_getmsg, h1, EINVAL] at h
  · by_cases h2 : t = PTHREAD_NOWAIT ∧ q.count = 0
    · simp [pthread_queue_getmsg, h1, h2, PTHREAD_WAIT, PTHREAD_NOWAIT,
        ETIMEDOUT] at h
    · by_cases h3 : q.count = 0
      · by_cases h4 : t = PTHREAD_WAIT
        · simp [pthread_queue_getmsg, h1, h2, h3, h4, PTHREAD_WAIT,
            PTHREAD_NOWAIT] at h
        · have h6 : ¬t < 0 := fun hc => h1 ⟨h4, hc⟩
          simp [pthread_queue_getmsg, h1, h2, h3, h4, h6, ETIMEDOUT] at h
      · refine ⟨h3, ?_, ?_⟩ <;>
          · simp [pthread_queue_getmsg, h1, h2, h3] at h
            tauto

/-- A sequence of sends, each returning success (0), with a per-call timeout. -/
inductive Sends : QueueState α → List α → QueueState α → Prop where
  | nil (q : QueueState α) : Sends q [] q
  | cons {q q₁ q₂ : QueueState α} {e : α} {es : List α} (t : Int)
      (h : pthread_queue_sendmsg q e t = .ret 0 () q₁)
      (rest : Sends q₁ es q₂) : Sends q (e :: es) q₂

/-- A sequence of receives, each returning success (0) and a message, with a
per-call timeout. -/
inductive Recvs : QueueState α → List α → QueueState α → Prop where
  | nil (q : QueueState α) : Recvs q [] q
  | cons {q q₁ q₂ : QueueState α} {v : α} {vs : List α} (t : Int)
      (h : pthread_queue_getmsg q t = .ret 0 (some v) q₁)
      (rest : Recvs q₁ vs q₂) : Recvs q (v :: vs) q₂

theorem sends_toList {q q' : QueueState α} {es : List α} (hs : Sends q es q') :
    QueueInv q → toList q' = toList q ++ es ∧ QueueInv q' := by
  induction hs with
  | nil q => exact fun hinv => ⟨(List.append_nil _).symm, hinv⟩
  | cons t h rest ih =>
      rename_i q q₁ q₂ e es
      intro hinv
      obtain ⟨hne, hrs, heq⟩ := sendmsg_ret_zero h
      subst heq
      have hlt : q.count < q.qsize := lt_of_le_of_ne hinv.2.1 hne
      obtain ⟨h1, h2⟩ := ih (queueInv_enqueue hinv hlt e)
      refine ⟨?_, h2⟩
      rw [h1, toList_enqueue hinv hlt, List.append_assoc, List.singleton_append]

theorem recvs_toList {q q' : QueueState α} {vs : List α} (hr : Recvs q vs q') :
    QueueInv q → toList q = vs ++ toList q' ∧ QueueInv q' := by
  induction hr with
  | nil q => exact fun hinv => ⟨rfl, hinv⟩
  | cons t h rest ih =>
      rename_i q q₁ q₂ v vs
      intro hinv
      obtain ⟨hne, hv, heq⟩ := getmsg_ret_zero h
      subst heq
      have hpos : 0 < q.count := Nat.pos_of_ne_zero hne
      obtain ⟨h1, h2⟩ := ih (queueInv_dequeue hinv hpos)
      refine ⟨?_, h2⟩
      rw [toList_dequeue hinv hpos, h1, ← Option.some.inj hv]
      rfl

/-- Claim C5. Starting from a structurally valid empty queue, if `n` sends of
`e1, …, en` all succeed (return 0) with no intervening reset, and then `n`
receives all succeed, the receives return exactly `e1, …, en` in order. -/
theorem queue_fifo_order {q q' q'' : QueueState α} {es vs : List α}
    (hinv : QueueInv q) (hempty : q.count = 0)
    (hs : Sends q es q') (hr : Recvs q' vs q'')
    (hlen : vs.length = es.length) : vs = es := by
  have h0 : toList q = [] := by
    unfold toList
    rw [hempty]
    rfl
  obtain ⟨h1, hinv1⟩ := sends_toList hs hinv
  rw [h0, List.nil_append] at h1
  obtain ⟨h2, -⟩ := recvs_toList hr hinv1
  rw [h1] at h2
  have h3 : (toList q'').length = 0 := by
    have h4 := congrArg List.length h2
    rw [List.length_append] at h4
    omega
  rw [List.length_eq_zero] at h3
  rw [h3, List.append_nil] at h2
  exact h2.symm

/-- Witness for C5: sends of 5 then 7 into a fresh 2-slot queue, followed by
two receives, which return 5 then 7. -/
theorem queue_fifo_order_witness : ([5, 7] : List Nat) = [5, 7] :=
  queue_fifo_order (q := pthread_queue_create Nat 2 4 0) (by decide) rfl
    (Sends.cons 0 rfl (Sends.cons 0 rfl (Sends.nil _)))
    (Recvs.cons 0 rfl (Recvs.cons 0 rfl (Recvs.nil _)))
    rfl
